import Mathlib

/-!
Verification of the URMS depot-logistics domain logic
(`urms_depot_ui.py` and `urms_depot_ui_pro.py`).

Strings manipulated character-by-character by the Python code are
modelled as `List Char`; timestamps and generated UUIDs, which Python
obtains from the environment, are passed as explicit parameters.
-/

namespace URMS

/-- Python strings, modelled as lists of characters. -/
abbrev Str := List Char

/-- The ASCII whitespace characters removed by Python's `str.strip()`. -/
def pyIsSpace (c : Char) : Bool :=
  c = ' ' || c = '\t' || c = '\n' || c = '\r' || c = '\x0b' || c = '\x0c'

/-- Remove leading whitespace (the left half of Python `str.strip()`). -/
def lstrip : Str → Str
  | [] => []
  | c :: cs => if pyIsSpace c then lstrip cs else c :: cs

/-- Remove trailing whitespace (the right half of Python `str.strip()`). -/
def rstrip (s : Str) : Str := (lstrip s.reverse).reverse

/-- Python `str.strip()`: remove surrounding whitespace. -/
def strip (s : Str) : Str := rstrip (lstrip s)

/-- Python `text.split(";")` for a one-character separator: every
occurrence of the separator starts a new segment, and the result always
has one more segment than there are separators (so `[] ↦ [[]]`). -/
def splitSemi : Str → List Str
  | [] => [[]]
  | c :: cs =>
    if c = ';' then [] :: splitSemi cs
    else
      match splitSemi cs with
      | [] => [[c]]
      | p :: ps => (c :: p) :: ps

/-- Python `part.split(sep, 1)` when `sep` occurs in `part`: the text
before the first occurrence paired with everything after it.  When the
separator is absent the whole input is returned as the first component
(the Python callers always guard on membership first). -/
def split1 (sep : Char) : Str → Str × Str
  | [] => ([], [])
  | c :: cs =>
    if c = sep then ([], cs)
    else
      let (a, b) := split1 sep cs
      (c :: a, b)

/-- Python `";".join(parts)`. -/
def joinSemi : List Str → Str
  | [] => []
  | [p] => p
  | p :: q :: ps => p ++ ';' :: joinSemi (q :: ps)

/-- One decoded wagon entry: `{"wagon_no": ..., "status": ...}`. -/
structure Wagon where
  wagon_no : Str
  status : Str
deriving DecidableEq

/-- `parse_wagon_details` from both UI files: split the ledger text on
`;`, keep only segments containing `:`, split each such segment at its
first `:` and strip both halves. -/
def parse_wagon_details (text : Str) : List Wagon :=
  if text = [] then []
  else
    (splitSemi text).filterMap fun part =>
      if ':' ∈ part then
        some ⟨strip (split1 ':' part).1, strip (split1 ':' part).2⟩
      else none

/-- `format_wagon_details` from both UI files:
`";".join(f"{wagon_no}:{status}")`. -/
def format_wagon_details (items : List Wagon) : Str :=
  joinSemi (items.map fun w => w.wagon_no ++ ':' :: w.status)

/-- Python `str.upper()` restricted to the ASCII repertoire the app uses. -/
def pyUpper (s : Str) : Str := s.map Char.toUpper

/-- The status literal `"UNLOADED"` as a character list. -/
def unloadedChars : Str := "UNLOADED".toList

/-- `count_unloaded` from `urms_depot_ui.py`:
`sum(1 for w in wagon_items if w["status"].upper() == "UNLOADED")`. -/
def count_unloaded (wagon_items : List Wagon) : Nat :=
  wagon_items.countP fun w => pyUpper w.status == unloadedChars

/-- `count_pending` from `urms_depot_ui.py`:
`sum(1 for w in wagon_items if w["status"].upper() != "UNLOADED")`. -/
def count_pending (wagon_items : List Wagon) : Nat :=
  wagon_items.countP fun w => pyUpper w.status != unloadedChars

/-- Python `int(q)` on an exact quotient: truncation toward zero. -/
def pyInt (q : ℚ) : ℤ := if q < 0 then ⌈q⌉ else ⌊q⌋

/-- `simple_eta_predict` from both UI files: substitute a default speed
of 20 when the given speed is non-positive, then truncate
`(distance / speed) * 60` to an integer number of minutes. -/
def simple_eta_predict (distance_km avg_speed_kmph : ℚ) : ℤ :=
  let s := if avg_speed_kmph ≤ 0 then (20 : ℚ) else avg_speed_kmph
  pyInt (distance_km / s * 60)

/-- `compute_d_and_w_risk` from both UI files. -/
def compute_d_and_w_risk (pending_wagons : ℕ) : String × ℕ :=
  if pending_wagons > 30 then ("HIGH", pending_wagons * 820)
  else if pending_wagons > 10 then ("MEDIUM", pending_wagons * 490)
  else ("LOW", 0)

/-- One recommended action `{"action": ..., "detail": ..., "urgency": ...}`. -/
structure Action where
  action : String
  detail : String
  urgency : String
deriving DecidableEq

/-- `recommended_actions_for_rake` from both UI files: derive the risk
tier from the pending count and emit the fixed action list for the tier. -/
def recommended_actions_for_rake (pending : ℕ) :
    List Action × String × ℕ :=
  let rd := compute_d_and_w_risk pending
  let actions : List Action :=
    if rd.1 = "HIGH" then
      [⟨"assign_trucks", "Assign 5 trucks to Block 3", "HIGH"⟩,
       ⟨"notify_ha", "Increase manpower by 3", "HIGH"⟩]
    else if rd.1 = "MEDIUM" then
      [⟨"notify_ha", "Add 1 extra worker", "MEDIUM"⟩]
    else
      [⟨"monitor", "Continue monitoring", "LOW"⟩]
  (actions, rd.1, rd.2)

/-- Decoding as worded by the spec (section 4.1): split on `;`, silently
drop every segment lacking a `:`, split the rest at the first `:` and
trim both halves of surrounding whitespace.  Stated separately from
`parse_wagon_details` so the two can be compared. -/
def decode_spec (text : Str) : List Wagon :=
  (splitSemi text).filterMap fun part =>
    if ':' ∈ part then
      some ⟨strip (split1 ':' part).1, strip (split1 ':' part).2⟩
    else none

/-- Row of the `rake_events` table, in column order. -/
structure RakeRow where
  rake_id : String
  fnr : String
  created_ts : Nat
  current_station : String
  eta_iso : String
  wagon_details : String
  raw : String
deriving DecidableEq

/-- Row of the `truck_assignments` table, in column order. -/
structure AssignmentRow where
  id : String
  rake_id : String
  truck_ids : String
  lane_from : String
  reason : String
  created_ts : Nat
deriving DecidableEq

/-- Row of the `cases` table, in column order. -/
structure CaseRow where
  case_id : String
  rake_id : String
  wagon_no : String
  case_type : String
  reported_by : String
  reported_ts : Nat
  details : String
deriving DecidableEq

/-- Row of the `activity_log` table of the pro UI, in column order. -/
structure LogRow where
  id : String
  ts : Nat
  level : String
  source : String
  message : String
deriving DecidableEq

namespace UI

/-- State of the SQLite database of `urms_depot_ui.py` (three tables),
each table as its list of rows in insertion order. -/
structure DB where
  rake_events : List RakeRow
  truck_assignments : List AssignmentRow
  cases : List CaseRow
deriving DecidableEq

/-- Embedding of `db_insert_rake` of `urms_depot_ui.py`: SQLite
`INSERT OR REPLACE` keyed on the `rake_id` primary key deletes any
conflicting row and inserts the new one; `created_ts` is the insertion
time, passed here as the explicit parameter `now`. -/
def db_insert_rake (now : Nat)
    (rake_id fnr current_station eta_iso wagon_details raw : String)
    (db : DB) : DB :=
  { db with rake_events :=
      (db.rake_events.filter fun r => r.rake_id != rake_id) ++
      [⟨rake_id, fnr, now, current_station, eta_iso, wagon_details, raw⟩] }

/-- Embedding of `db_get_rake`: `SELECT * FROM rake_events WHERE
rake_id=?` followed by `fetchone`. -/
def db_get_rake (rake_id : String) (db : DB) : Option RakeRow :=
  db.rake_events.find? fun r => r.rake_id == rake_id

/-- Embedding of `db_get_assignments`: the full `truck_assignments` table. -/
def db_get_assignments (db : DB) : List AssignmentRow :=
  db.truck_assignments

/-- Embedding of `db_get_cases`: the full `cases` table. -/
def db_get_cases (db : DB) : List CaseRow :=
  db.cases

/-- Embedding of `db_insert_assignment`: a plain SQLite `INSERT` of a row
keyed by a generated UUID (passed as the parameter `uuid`), returning
the generated id.  A primary-key conflict makes the `INSERT` raise,
modelled by `none`. -/
def db_insert_assignment (uuid : String) (now : Nat) (rake_id : String)
    (truck_ids : List String) (lane_from reason : String) (db : DB) :
    Option (String × DB) :=
  let task_id := uuid
  if db.truck_assignments.any fun r => r.id == task_id then none
  else some (task_id,
    { db with truck_assignments := db.truck_assignments ++
        [⟨task_id, rake_id, String.intercalate "," truck_ids,
          lane_from, reason, now⟩] })

/-- Embedding of `db_insert_case`: the case id is `"CASE-"` followed by
the first 8 characters of a generated UUID; the row is inserted with a
plain `INSERT` (primary-key conflict modelled by `none`). -/
def db_insert_case (uuid : String) (now : Nat)
    (rake_id wagon_no case_type reported_by details : String) (db : DB) :
    Option (String × DB) :=
  let case_id := "CASE-" ++ uuid.take 8
  if db.cases.any fun r => r.case_id == case_id then none
  else some (case_id,
    { db with cases := db.cases ++
        [⟨case_id, rake_id, wagon_no, case_type, reported_by, now,
          details⟩] })

end UI

namespace Pro

/-- State of the SQLite database of `urms_depot_ui_pro.py` (four
tables), each table as its list of rows in insertion order. -/
structure DB where
  rake_events : List RakeRow
  truck_assignments : List AssignmentRow
  cases : List CaseRow
  activity_log : List LogRow
deriving DecidableEq

/-- Embedding of `log_activity` of `urms_depot_ui_pro.py`: insert one
row into `activity_log` (the generated UUID and the timestamp are
passed as parameters). -/
def log_activity (uuid : String) (ts : Nat) (level source message : String)
    (db : DB) : DB :=
  { db with activity_log := db.activity_log ++
      [⟨uuid, ts, level, source, message⟩] }

/-- Embedding of the pro `db_insert_rake`: `INSERT OR REPLACE` keyed on
`rake_id`, then one `log_activity` call. -/
def db_insert_rake (now : Nat)
    (rake_id fnr current_station eta_iso wagon_details raw : String)
    (logUuid : String) (logTs : Nat) (db : DB) : DB :=
  let db1 : DB :=
    { db with rake_events :=
        (db.rake_events.filter fun r => r.rake_id != rake_id) ++
        [⟨rake_id, fnr, now, current_station, eta_iso, wagon_details, raw⟩] }
  log_activity logUuid logTs "INFO" "FOIS_SIM"
    ("Inserted/Updated rake " ++ rake_id) db1

/-- Embedding of the pro `db_insert_assignment`: plain `INSERT` of the
new row (primary-key conflict modelled by `none`), then one
`log_activity` call. -/
def db_insert_assignment (uuid : String) (now : Nat) (rake_id : String)
    (truck_ids : List String) (lane_from reason : String)
    (logUuid : String) (logTs : Nat) (db : DB) : Option (String × DB) :=
  let task_id := uuid
  if db.truck_assignments.any fun r => r.id == task_id then none
  else
    let db1 : DB :=
      { db with truck_assignments := db.truck_assignments ++
          [⟨task_id, rake_id, String.intercalate "," truck_ids,
            lane_from, reason, now⟩] }
    some (task_id,
      log_activity logUuid logTs "INFO" "ASSIGN"
        ("Assigned " ++ toString truck_ids.length ++ " trucks to " ++ rake_id)
        db1)

/-- Embedding of the pro `db_insert_case`: the case id is `"CASE-"` plus
the first 8 characters of a generated UUID; plain `INSERT` of the new
row (primary-key conflict modelled by `none`), then one `log_activity`
call. -/
def db_insert_case (uuid : String) (now : Nat)
    (rake_id wagon_no case_type reported_by details : String)
    (logUuid : String) (logTs : Nat) (db : DB) : Option (String × DB) :=
  let case_id := "CASE-" ++ uuid.take 8
  if db.cases.any fun r => r.case_id == case_id then none
  else
    let db1 : DB :=
      { db with cases := db.cases ++
          [⟨case_id, rake_id, wagon_no, case_type, reported_by, now,
            details⟩] }
    some (case_id,
      log_activity logUuid logTs "WARN" "CASE"
        (case_type ++ " for " ++ rake_id ++ ":" ++ wagon_no ++ " by " ++
          reported_by)
        db1)

end Pro

example : parse_wagon_details "W1:PENDING;W2:UNLOADED".toList =
    [⟨"W1".toList, "PENDING".toList⟩, ⟨"W2".toList, "UNLOADED".toList⟩] := by
  decide

example : format_wagon_details [⟨"W1".toList, "PENDING".toList⟩] =
    "W1:PENDING".toList := by decide

example : compute_d_and_w_risk 31 = ("HIGH", 25420) := by decide

example : simple_eta_predict 150 30 = 300 := by
  unfold simple_eta_predict pyInt; norm_num

example : simple_eta_predict 150 0 = 450 := by
  unfold simple_eta_predict pyInt; norm_num

/-! Lemmas about the splitting and joining primitives. -/

theorem splitSemi_ne_nil (s : Str) : splitSemi s ≠ [] := by
  induction s with
  | nil => simp [splitSemi]
  | cons c cs ih =>
    unfold splitSemi
    split
    · simp
    · split <;> simp

theorem splitSemi_no_semi (s : Str) (h : ';' ∉ s) : splitSemi s = [s] := by
  induction s with
  | nil => rfl
  | cons c cs ih =>
    have hc : ¬c = ';' := fun e => h (e ▸ List.mem_cons_self c cs)
    have hcs : ';' ∉ cs := fun m => h (List.mem_cons_of_mem c m)
    unfold splitSemi
    rw [if_neg hc, ih hcs]

theorem splitSemi_append (p t : Str) (hp : ';' ∉ p) :
    splitSemi (p ++ ';' :: t) = p :: splitSemi t := by
  induction p with
  | nil =>
    show splitSemi (';' :: t) = [] :: splitSemi t
    conv_lhs => unfold splitSemi
    rw [if_pos rfl]
  | cons c cs ih =>
    have hc : ¬c = ';' := fun e => hp (e ▸ List.mem_cons_self c cs)
    have hcs : ';' ∉ cs := fun m => hp (List.mem_cons_of_mem c m)
    show splitSemi (c :: (cs ++ ';' :: t)) = (c :: cs) :: splitSemi t
    conv_lhs => unfold splitSemi
    rw [if_neg hc, ih hcs]

theorem splitSemi_joinSemi (parts : List Str) (hne : parts ≠ [])
    (h : ∀ p ∈ parts, ';' ∉ p) : splitSemi (joinSemi parts) = parts := by
  induction parts with
  | nil => exact absurd rfl hne
  | cons p ps ih =>
    cases ps with
    | nil =>
      show splitSemi (joinSemi [p]) = [p]
      unfold joinSemi
      exact splitSemi_no_semi p (h p (List.mem_cons_self p []))
    | cons q qs =>
      show splitSemi (joinSemi (p :: q :: qs)) = p :: q :: qs
      unfold joinSemi
      rw [splitSemi_append p _ (h p (List.mem_cons_self _ _)),
        ih (by simp) fun x hx => h x (List.mem_cons_of_mem p hx)]

theorem split1_append (sep : Char) (a b : Str) (h : sep ∉ a) :
    split1 sep (a ++ sep :: b) = (a, b) := by
  induction a with
  | nil =>
    simp only [List.nil_append]
    unfold split1
    rw [if_pos rfl]
  | cons c cs ih =>
    have hc : ¬c = sep := fun e => h (e ▸ List.mem_cons_self c cs)
    have hcs : sep ∉ cs := fun m => h (List.mem_cons_of_mem c m)
    simp only [List.cons_append]
    unfold split1
    rw [if_neg hc, ih hcs]

theorem joinSemi_cons_ne_nil (p : Str) (ps : List Str) (hp : p ≠ []) :
    joinSemi (p :: ps) ≠ [] := by
  cases ps with
  | nil => simpa [joinSemi] using hp
  | cons q qs => simp [joinSemi]

/-! Lemmas about whitespace stripping. -/

theorem lstrip_nonspace (c : Char) (t : Str) (hc : pyIsSpace c = false) :
    lstrip (c :: t) = c :: t := by
  simp [lstrip, hc]

theorem lstrip_shape (s : Str) :
    lstrip s = [] ∨ ∃ c t, lstrip s = c :: t ∧ pyIsSpace c = false := by
  induction s with
  | nil => exact Or.inl rfl
  | cons c cs ih =>
    by_cases h : pyIsSpace c
    · rw [show lstrip (c :: cs) = lstrip cs by simp [lstrip, h]]
      exact ih
    · exact Or.inr ⟨c, cs, by simp [lstrip, h], by simpa using h⟩

theorem lstrip_idem (s : Str) : lstrip (lstrip s) = lstrip s := by
  rcases lstrip_shape s with h | ⟨c, t, h, hc⟩
  · rw [h]; rfl
  · rw [h]; exact lstrip_nonspace c t hc

theorem rstrip_idem (s : Str) : rstrip (rstrip s) = rstrip s := by
  unfold rstrip
  rw [List.reverse_reverse, lstrip_idem]

theorem lstrip_snoc (a : Str) (c : Char) :
    lstrip (a ++ [c]) = [] ∨ ∃ pre, lstrip (a ++ [c]) = pre ++ [c] := by
  induction a with
  | nil =>
    by_cases h : pyIsSpace c
    · exact Or.inl (by simp [lstrip, h])
    · exact Or.inr ⟨[], by simp [lstrip, h]⟩
  | cons x xs ih =>
    by_cases h : pyIsSpace x
    · rw [List.cons_append, show lstrip (x :: (xs ++ [c])) = lstrip (xs ++ [c]) by
        simp [lstrip, h]]
      exact ih
    · refine Or.inr ⟨x :: xs, ?_⟩
      rw [List.cons_append, lstrip_nonspace x (xs ++ [c]) (by simpa using h)]

theorem rstrip_head (c : Char) (t : Str) :
    rstrip (c :: t) = [] ∨ ∃ u, rstrip (c :: t) = c :: u := by
  unfold rstrip
  rcases lstrip_snoc t.reverse c with h | ⟨pre, h⟩
  · rw [List.reverse_cons, h]
    exact Or.inl rfl
  · refine Or.inr ⟨pre.reverse, ?_⟩
    rw [List.reverse_cons, h, List.reverse_append]
    rfl

theorem strip_idem (s : Str) : strip (strip s) = strip s := by
  unfold strip
  rcases lstrip_shape s with h | ⟨c, t, h, hc⟩
  · rw [h]; rfl
  · rw [h]
    rcases rstrip_head c t with h2 | ⟨u, h2⟩
    · rw [h2]; rfl
    · rw [h2, lstrip_nonspace c u hc, ← h2, rstrip_idem]

/-- Well-formedness of a wagon entry as the claim words it: both fields
non-empty and free of `:` and `;`. -/
def wellFormedWagon (x : Wagon) : Prop :=
  x.wagon_no ≠ [] ∧ x.status ≠ [] ∧
  ':' ∉ x.wagon_no ∧ ';' ∉ x.wagon_no ∧
  ':' ∉ x.status ∧ ';' ∉ x.status

instance (x : Wagon) : Decidable (wellFormedWagon x) := by
  unfold wellFormedWagon; infer_instance

/-- Both fields of the wagon entry carry no surrounding whitespace
(they are fixed points of `strip`). -/
def strippedWagon (x : Wagon) : Prop :=
  strip x.wagon_no = x.wagon_no ∧ strip x.status = x.status

instance (x : Wagon) : Decidable (strippedWagon x) := by
  unfold strippedWagon; infer_instance

theorem encode_entry_ne_nil (x : Wagon) :
    x.wagon_no ++ ':' :: x.status ≠ [] := by
  simp

theorem encode_entry_no_semi (x : Wagon) (h1 : ';' ∉ x.wagon_no)
    (h2 : ';' ∉ x.status) : ';' ∉ x.wagon_no ++ ':' :: x.status := by
  intro hm
  rcases List.mem_append.1 hm with h | h
  · exact h1 h
  · rcases List.mem_cons.1 h with h | h
    · exact absurd h (by decide)
    · exact h2 h

theorem parse_encoded (w : List Wagon)
    (h : ∀ x ∈ w, wellFormedWagon x ∧ strippedWagon x) :
    ((w.map fun x => x.wagon_no ++ ':' :: x.status).filterMap fun part =>
        if ':' ∈ part then
          some ⟨strip (split1 ':' part).1, strip (split1 ':' part).2⟩
        else none) = w := by
  induction w with
  | nil => rfl
  | cons x xs ih =>
    obtain ⟨⟨-, -, hcn, -, -, -⟩, hsw, hss⟩ := h x (List.mem_cons_self x xs)
    have hmem : ':' ∈ x.wagon_no ++ ':' :: x.status :=
      List.mem_append_right _ (List.mem_cons_self _ _)
    have hf : (if ':' ∈ x.wagon_no ++ ':' :: x.status then
        some (Wagon.mk (strip (split1 ':' (x.wagon_no ++ ':' :: x.status)).1)
          (strip (split1 ':' (x.wagon_no ++ ':' :: x.status)).2))
      else none) = some x := by
      rw [if_pos hmem, split1_append ':' x.wagon_no x.status hcn]
      rw [show (x.wagon_no, x.status).1 = x.wagon_no from rfl,
        show (x.wagon_no, x.status).2 = x.status from rfl, hsw, hss]
    simp only [List.map_cons]
    rw [List.filterMap_cons, hf]
    exact congrArg (List.cons x)
      (ih fun y hy => h y (List.mem_cons_of_mem x hy))

/-- C2 (amended): round trip holds for well-formed wagon lists whose
fields additionally carry no surrounding whitespace, and the empty list
encodes to the empty string. -/
theorem C2_codec_roundtrip_stripped (w : List Wagon)
    (h : ∀ x ∈ w, wellFormedWagon x ∧ strippedWagon x) :
    parse_wagon_details (format_wagon_details w) = w ∧
    format_wagon_details [] = [] := by
  refine ⟨?_, rfl⟩
  cases w with
  | nil => rfl
  | cons x xs =>
    obtain ⟨⟨hn1, -, -, -, -, -⟩, -⟩ := h x (List.mem_cons_self x xs)
    have hne : format_wagon_details (x :: xs) ≠ [] := by
      unfold format_wagon_details
      rw [List.map_cons]
      exact joinSemi_cons_ne_nil _ _ (encode_entry_ne_nil x)
    unfold parse_wagon_details
    rw [if_neg hne]
    unfold format_wagon_details
    rw [splitSemi_joinSemi _ (by simp) ?nosemi]
    case nosemi =>
      intro p hp
      rw [List.mem_map] at hp
      obtain ⟨y, hy, rfl⟩ := hp
      obtain ⟨⟨-, -, -, h4, -, h6⟩, -⟩ := h y hy
      exact encode_entry_no_semi y h4 h6
    exact parse_encoded (x :: xs) h

/-- C2 (counterexample): a wagon list that is well-formed exactly as the
claim words it (non-empty fields, no `:` or `;`) but whose wagon number
carries a leading space does not survive the round trip, because
decoding strips the space. -/
theorem C2_counterexample :
    (∀ x ∈ [(⟨[' ', 'A'], ['P']⟩ : Wagon)], wellFormedWagon x) ∧
    parse_wagon_details (format_wagon_details [(⟨[' ', 'A'], ['P']⟩ : Wagon)]) ≠
      [(⟨[' ', 'A'], ['P']⟩ : Wagon)] := by
  decide

theorem C2_witness :
    (∀ x ∈ [(⟨['W', '1'], ['O', 'K']⟩ : Wagon)],
      wellFormedWagon x ∧ strippedWagon x) ∧
    (parse_wagon_details
        (format_wagon_details [(⟨['W', '1'], ['O', 'K']⟩ : Wagon)]) =
      [(⟨['W', '1'], ['O', 'K']⟩ : Wagon)] ∧
      format_wagon_details [] = []) :=
  ⟨by decide, C2_codec_roundtrip_stripped _ (by decide)⟩

theorem length_filterMap_guard (l : List Str) :
    (l.filterMap fun part =>
        if ':' ∈ part then
          some (Wagon.mk (strip (split1 ':' part).1) (strip (split1 ':' part).2))
        else none).length =
      (l.filter fun p => decide (':' ∈ p)).length := by
  induction l with
  | nil => rfl
  | cons p ps ih =>
    by_cases hp : ':' ∈ p
    · simp [List.filterMap_cons, List.filter_cons, hp, ih]
    · simp [List.filterMap_cons, List.filter_cons, hp, ih]

/-- C7: decoding any ledger text equals the spec's description (split on
`;`, silently drop segments without `:`, cut the rest at the first `:`),
the number of decoded entries is the number of segments containing `:`,
and every decoded field is already stripped of surrounding whitespace. -/
theorem C7_decode_tolerant (text : Str) :
    parse_wagon_details text = decode_spec text ∧
    (parse_wagon_details text).length =
      ((splitSemi text).filter fun p => decide (':' ∈ p)).length ∧
    ∀ e ∈ parse_wagon_details text,
      strip e.wagon_no = e.wagon_no ∧ strip e.status = e.status := by
  refine ⟨?_, ?_, ?_⟩
  · by_cases ht : text = []
    · subst ht; decide
    · unfold parse_wagon_details decode_spec
      rw [if_neg ht]
  · by_cases ht : text = []
    · subst ht; decide
    · unfold parse_wagon_details
      rw [if_neg ht]
      exact length_filterMap_guard _
  · intro e he
    unfold parse_wagon_details at he
    split at he
    · exact absurd he (List.not_mem_nil e)
    · obtain ⟨part, -, hfe⟩ := List.mem_filterMap.1 he
      by_cases hp : ':' ∈ part
      · rw [if_pos hp] at hfe
        obtain rfl := Option.some.inj hfe
        exact ⟨strip_idem _, strip_idem _⟩
      · rw [if_neg hp] at hfe
        exact absurd hfe (by simp)

theorem C7_witness :
    parse_wagon_details "W1:PENDING;garbage; X : Y ".toList =
      decode_spec "W1:PENDING;garbage; X : Y ".toList :=
  (C7_decode_tolerant _).1

/-- C1: the risk estimator maps a pending count above 30 to HIGH with
cost `820 * count`, a count in `(10, 30]` to MEDIUM with cost
`490 * count`, and a count of at most 10 to LOW with cost 0; the
boundary counts 0, 10, 30 map to LOW, LOW, MEDIUM. -/
theorem C1_risk_thresholds (p : ℕ) :
    (30 < p → compute_d_and_w_risk p = ("HIGH", p * 820)) ∧
    (10 < p → p ≤ 30 → compute_d_and_w_risk p = ("MEDIUM", p * 490)) ∧
    (p ≤ 10 → compute_d_and_w_risk p = ("LOW", 0)) ∧
    compute_d_and_w_risk 0 = ("LOW", 0) ∧
    compute_d_and_w_risk 10 = ("LOW", 0) ∧
    compute_d_and_w_risk 30 = ("MEDIUM", 14700) := by
  refine ⟨fun h => ?_, fun h1 h2 => ?_, fun h => ?_,
    by decide, by decide, by decide⟩
  · unfold compute_d_and_w_risk
    rw [if_pos h]
  · unfold compute_d_and_w_risk
    rw [if_neg (by omega), if_pos h1]
  · unfold compute_d_and_w_risk
    rw [if_neg (by omega), if_neg (by omega)]

theorem C1_witness :
    compute_d_and_w_risk 31 = ("HIGH", 25420) ∧
    compute_d_and_w_risk 20 = ("MEDIUM", 9800) ∧
    compute_d_and_w_risk 5 = ("LOW", 0) :=
  ⟨(C1_risk_thresholds 31).1 (by decide),
   (C1_risk_thresholds 20).2.1 (by decide) (by decide),
   (C1_risk_thresholds 5).2.2.1 (by decide)⟩

/-- C4: for positive distance the ETA estimator computes
`floor((distance / s) * 60)` where `s` is the given speed when positive
and 20 otherwise, and in particular maps `(150, 30)` to 300 and
`(150, 0)` to 450. -/
theorem C4_eta_floor (d s : ℚ) (hd : 0 < d) :
    simple_eta_predict d s = ⌊d / (if 0 < s then s else 20) * 60⌋ ∧
    simple_eta_predict 150 30 = 300 ∧ simple_eta_predict 150 0 = 450 := by
  refine ⟨?_, by unfold simple_eta_predict pyInt; norm_num,
    by unfold simple_eta_predict pyInt; norm_num⟩
  have hcond : (if s ≤ 0 then (20 : ℚ) else s) = if 0 < s then s else 20 := by
    rcases le_or_lt s 0 with h | h
    · rw [if_pos h, if_neg (not_lt.2 h)]
    · rw [if_neg (not_le.2 h), if_pos h]
  have hs : (0 : ℚ) < if 0 < s then s else 20 := by
    split_ifs with h
    · exact h
    · norm_num
  have hq : (0 : ℚ) < d / (if 0 < s then s else 20) * 60 :=
    mul_pos (div_pos hd hs) (by norm_num)
  show pyInt (d / (if s ≤ 0 then (20 : ℚ) else s) * 60) = _
  rw [hcond]
  unfold pyInt
  rw [if_neg (not_lt.2 (le_of_lt hq))]

theorem C4_witness :
    (0 : ℚ) < 100 ∧
    (simple_eta_predict 100 7 = ⌊(100 : ℚ) / (if (0 : ℚ) < 7 then 7 else 20) * 60⌋ ∧
      simple_eta_predict 150 30 = 300 ∧ simple_eta_predict 150 0 = 450) :=
  ⟨by norm_num, C4_eta_floor 100 7 (by norm_num)⟩

/-- C5: the action recommender is a pure function of the tier derived
from the pending count: tier HIGH yields exactly the assign-trucks
action followed by the increase-manpower action, both with urgency
HIGH; MEDIUM yields exactly one add-worker action with urgency MEDIUM;
LOW yields exactly one monitor action with urgency LOW; and the tier is
always one of the three. -/
theorem C5_recommender_actions (pending : ℕ) :
    ((recommended_actions_for_rake pending).2.1 = "HIGH" →
      (recommended_actions_for_rake pending).1 =
        [⟨"assign_trucks", "Assign 5 trucks to Block 3", "HIGH"⟩,
         ⟨"notify_ha", "Increase manpower by 3", "HIGH"⟩]) ∧
    ((recommended_actions_for_rake pending).2.1 = "MEDIUM" →
      (recommended_actions_for_rake pending).1 =
        [⟨"notify_ha", "Add 1 extra worker", "MEDIUM"⟩]) ∧
    ((recommended_actions_for_rake pending).2.1 = "LOW" →
      (recommended_actions_for_rake pending).1 =
        [⟨"monitor", "Continue monitoring", "LOW"⟩]) ∧
    ((recommended_actions_for_rake pending).2.1 = "HIGH" ∨
      (recommended_actions_for_rake pending).2.1 = "MEDIUM" ∨
      (recommended_actions_for_rake pending).2.1 = "LOW") := by
  unfold recommended_actions_for_rake compute_d_and_w_risk
  split_ifs <;> refine ⟨?_, ?_, ?_, ?_⟩ <;> simp

theorem C5_witness :
    (recommended_actions_for_rake 40).1 =
      [⟨"assign_trucks", "Assign 5 trucks to Block 3", "HIGH"⟩,
       ⟨"notify_ha", "Increase manpower by 3", "HIGH"⟩] ∧
    (recommended_actions_for_rake 20).1 =
      [⟨"notify_ha", "Add 1 extra worker", "MEDIUM"⟩] ∧
    (recommended_actions_for_rake 5).1 =
      [⟨"monitor", "Continue monitoring", "LOW"⟩] :=
  ⟨(C5_recommender_actions 40).1 (by decide),
   (C5_recommender_actions 20).2.1 (by decide),
   (C5_recommender_actions 5).2.2.1 (by decide)⟩

/-- C8: the projected cost of the risk estimator is monotone
non-decreasing in the pending count, across tier boundaries included. -/
theorem C8_cost_monotone (p1 p2 : ℕ) (h : p1 ≤ p2) :
    (compute_d_and_w_risk p1).2 ≤ (compute_d_and_w_risk p2).2 := by
  unfold compute_d_and_w_risk
  split_ifs <;> dsimp only <;> omega

theorem C8_witness :
    10 ≤ 31 ∧ (compute_d_and_w_risk 10).2 ≤ (compute_d_and_w_risk 31).2 :=
  ⟨by decide, C8_cost_monotone 10 31 (by decide)⟩

/-- C10: on any decoded wagon list, pending and unloaded counts
partition the list (a wagon counts as unloaded exactly when its status
uppercases to `UNLOADED`, every other status counts as pending), and
decoding performs no validation of the status against the
`{PENDING, UNLOADED}` enum. -/
theorem C10_status_partition (w : List Wagon) :
    count_pending w + count_unloaded w = w.length ∧
    count_unloaded w =
      (w.filter fun x => pyUpper x.status == unloadedChars).length ∧
    count_pending w =
      (w.filter fun x => !(pyUpper x.status == unloadedChars)).length ∧
    parse_wagon_details "W1:WEIRD".toList =
      [⟨"W1".toList, "WEIRD".toList⟩] := by
  refine ⟨?_, ?_, ?_, by decide⟩
  · induction w with
    | nil => rfl
    | cons x xs ih =>
      unfold count_pending count_unloaded at ih ⊢
      simp only [bne] at ih ⊢
      rw [List.countP_cons, List.countP_cons, List.length_cons]
      cases hx : pyUpper x.status == unloadedChars <;> simp [hx] <;> omega
  · unfold count_unloaded
    rw [List.countP_eq_length_filter]
  · unfold count_pending
    rw [List.countP_eq_length_filter]
    simp only [bne]

/-! Helpers for reasoning about the stores. -/

theorem find_append_singleton {α : Type} (p : α → Bool) (l : List α) (a : α)
    (hl : ∀ x ∈ l, p x = false) (ha : p a = true) :
    (l ++ [a]).find? p = some a := by
  induction l with
  | nil => simp [List.find?, ha]
  | cons x xs ih =>
    rw [List.cons_append,
      List.find?_cons_of_neg _ (by simp [hl x (List.mem_cons_self x xs)])]
    exact ih fun y hy => hl y (List.mem_cons_of_mem x hy)

theorem rake_filter_beq_of_bne (l : List RakeRow) (rid : String) :
    ((l.filter fun r => r.rake_id != rid).filter fun r => r.rake_id == rid) =
      [] := by
  induction l with
  | nil => rfl
  | cons x xs ih =>
    cases hx : x.rake_id == rid <;> simp [List.filter_cons, bne, hx, ih]

theorem rake_mem_filter_bne (l : List RakeRow) (rid : String) (x : RakeRow)
    (hx : x ∈ l.filter fun r => r.rake_id != rid) :
    (x.rake_id == rid) = false := by
  simpa [bne] using List.of_mem_filter hx

theorem assign_any_beq_false (l : List AssignmentRow) (v : String)
    (h : ∀ x ∈ l, x.id ≠ v) : (l.any fun x => x.id == v) = false := by
  induction l with
  | nil => rfl
  | cons x xs ih =>
    rw [List.any_cons, beq_eq_false_iff_ne.2 (h x (List.mem_cons_self x xs))]
    simp only [Bool.false_or]
    exact ih fun y hy => h y (List.mem_cons_of_mem x hy)

theorem case_any_beq_false (l : List CaseRow) (v : String)
    (h : ∀ x ∈ l, x.case_id ≠ v) : (l.any fun x => x.case_id == v) = false := by
  induction l with
  | nil => rfl
  | cons x xs ih =>
    rw [List.any_cons, beq_eq_false_iff_ne.2 (h x (List.mem_cons_self x xs))]
    simp only [Bool.false_or]
    exact ih fun y hy => h y (List.mem_cons_of_mem x hy)

/-- C3: inserting a rake record twice under the same `rake_id` leaves
exactly one stored row keyed by that id, and its contents are exactly
those of the second write (full replacement, not a merge). -/
theorem C3_upsert_replaces (db : UI.DB) (t1 t2 : Nat)
    (rid f1 s1 e1 w1 r1 f2 s2 e2 w2 r2 : String) :
    ((UI.db_insert_rake t2 rid f2 s2 e2 w2 r2
        (UI.db_insert_rake t1 rid f1 s1 e1 w1 r1 db)).rake_events.filter
      fun r => r.rake_id == rid) = [⟨rid, f2, t2, s2, e2, w2, r2⟩] ∧
    UI.db_get_rake rid (UI.db_insert_rake t2 rid f2 s2 e2 w2 r2
        (UI.db_insert_rake t1 rid f1 s1 e1 w1 r1 db)) =
      some ⟨rid, f2, t2, s2, e2, w2, r2⟩ := by
  have h2 : (UI.db_insert_rake t2 rid f2 s2 e2 w2 r2
      (UI.db_insert_rake t1 rid f1 s1 e1 w1 r1 db)).rake_events =
      (((db.rake_events.filter fun r => r.rake_id != rid) ++
          [(⟨rid, f1, t1, s1, e1, w1, r1⟩ : RakeRow)]).filter
        fun r => r.rake_id != rid) ++
        [(⟨rid, f2, t2, s2, e2, w2, r2⟩ : RakeRow)] := rfl
  constructor
  · rw [h2, List.filter_append, rake_filter_beq_of_bne]
    simp [List.filter_cons]
  · unfold UI.db_get_rake
    rw [h2]
    exact find_append_singleton _ _ _
      (fun x hx => rake_mem_filter_bne _ rid x hx) (by simp)

/-- C9: truck assignments and exception cases can be created for any
rake id, with no check against the rake table: starting from any store
state (in particular one holding no rake at all under that id), both
inserts succeed, return the generated identifiers, and the inserted
rows are retrievable from the returned tables by those identifiers. -/
theorem C9_insert_without_rake (db : UI.DB) (uuid1 uuid2 : String)
    (t1 t2 : Nat)
    (rake_id lane_from reason wagon_no case_type reported_by details : String)
    (truck_ids : List String)
    (h1 : ∀ r ∈ db.truck_assignments, r.id ≠ uuid1)
    (h2 : ∀ c ∈ db.cases, c.case_id ≠ "CASE-" ++ uuid2.take 8) :
    ∃ db1 db2,
      UI.db_insert_assignment uuid1 t1 rake_id truck_ids lane_from reason db =
        some (uuid1, db1) ∧
      UI.db_insert_case uuid2 t2 rake_id wagon_no case_type reported_by details
        db1 = some ("CASE-" ++ uuid2.take 8, db2) ∧
      (UI.db_get_assignments db2).find? (fun r => r.id == uuid1) =
        some ⟨uuid1, rake_id, String.intercalate "," truck_ids, lane_from,
          reason, t1⟩ ∧
      (UI.db_get_cases db2).find? (fun c => c.case_id == "CASE-" ++ uuid2.take 8) =
        some ⟨"CASE-" ++ uuid2.take 8, rake_id, wagon_no, case_type,
          reported_by, t2, details⟩ := by
  have hany1 := assign_any_beq_false db.truck_assignments uuid1 h1
  have hany2 := case_any_beq_false db.cases ("CASE-" ++ uuid2.take 8) h2
  refine ⟨{ db with truck_assignments := db.truck_assignments ++
      [⟨uuid1, rake_id, String.intercalate "," truck_ids, lane_from,
        reason, t1⟩] },
    { db with
      truck_assignments := db.truck_assignments ++
        [⟨uuid1, rake_id, String.intercalate "," truck_ids, lane_from,
          reason, t1⟩],
      cases := db.cases ++
        [⟨"CASE-" ++ uuid2.take 8, rake_id, wagon_no, case_type,
          reported_by, t2, details⟩] },
    ?_, ?_, ?_, ?_⟩
  · simp [UI.db_insert_assignment, hany1]
  · simp [UI.db_insert_case, hany2]
  · exact find_append_singleton _ _ _
      (fun x hx => beq_eq_false_iff_ne.2 (h1 x hx)) (by simp)
  · exact find_append_singleton _ _ _
      (fun x hx => beq_eq_false_iff_ne.2 (h2 x hx)) (by simp)

theorem C9_witness :
    ∃ db1 db2,
      UI.db_insert_assignment "u1" 0 "RAKE-GHOST" ["TRK-101"] "Yard-Lane-A"
        "Resolve backlog" ⟨[], [], []⟩ = some ("u1", db1) ∧
      UI.db_insert_case "0123456789" 1 "RAKE-GHOST" "W001" "DAMAGE"
        "depot_user_01" "d" db1 = some ("CASE-" ++ "0123456789".take 8, db2) ∧
      (UI.db_get_assignments db2).find? (fun r => r.id == "u1") =
        some ⟨"u1", "RAKE-GHOST", String.intercalate "," ["TRK-101"],
          "Yard-Lane-A", "Resolve backlog", 0⟩ ∧
      (UI.db_get_cases db2).find?
          (fun c => c.case_id == "CASE-" ++ "0123456789".take 8) =
        some ⟨"CASE-" ++ "0123456789".take 8, "RAKE-GHOST", "W001", "DAMAGE",
          "depot_user_01", 1, "d"⟩ :=
  C9_insert_without_rake ⟨[], [], []⟩ "u1" "0123456789" 0 1 "RAKE-GHOST"
    "Yard-Lane-A" "Resolve backlog" "W001" "DAMAGE" "depot_user_01" "d"
    ["TRK-101"] (by simp) (by simp)

/-- C6: each mutating store operation of the pro UI (rake upsert,
assignment insert, case insert) appends exactly one entry to the
activity log: afterwards the log equals its prior contents extended by
one new entry. -/
theorem C6_mutations_log_one_entry (db : Pro.DB)
    (t1 t2 t3 lt1 lt2 lt3 : Nat) (u2 u3 la1 la2 la3 : String)
    (rake_id fnr station eta wd raw lane reason wagon_no case_type
      reported_by details : String)
    (truck_ids : List String)
    (h1 : ∀ r ∈ db.truck_assignments, r.id ≠ u2)
    (h2 : ∀ c ∈ db.cases, c.case_id ≠ "CASE-" ++ u3.take 8) :
    (Pro.db_insert_rake t1 rake_id fnr station eta wd raw la1 lt1
        db).activity_log =
      db.activity_log ++
        [⟨la1, lt1, "INFO", "FOIS_SIM", "Inserted/Updated rake " ++ rake_id⟩] ∧
    (∃ db1, Pro.db_insert_assignment u2 t2 rake_id truck_ids lane reason
        la2 lt2 db = some (u2, db1) ∧
      db1.activity_log = db.activity_log ++
        [⟨la2, lt2, "INFO", "ASSIGN",
          "Assigned " ++ toString truck_ids.length ++ " trucks to " ++
            rake_id⟩]) ∧
    (∃ db2, Pro.db_insert_case u3 t3 rake_id wagon_no case_type reported_by
        details la3 lt3 db = some ("CASE-" ++ u3.take 8, db2) ∧
      db2.activity_log = db.activity_log ++
        [⟨la3, lt3, "WARN", "CASE",
          case_type ++ " for " ++ rake_id ++ ":" ++ wagon_no ++ " by " ++
            reported_by⟩]) := by
  have hany1 := assign_any_beq_false db.truck_assignments u2 h1
  have hany2 := case_any_beq_false db.cases ("CASE-" ++ u3.take 8) h2
  refine ⟨rfl,
    ⟨Pro.log_activity la2 lt2 "INFO" "ASSIGN"
      ("Assigned " ++ toString truck_ids.length ++ " trucks to " ++ rake_id)
      { db with truck_assignments := db.truck_assignments ++
        [⟨u2, rake_id, String.intercalate "," truck_ids, lane, reason, t2⟩] },
      ?_, rfl⟩,
    ⟨Pro.log_activity la3 lt3 "WARN" "CASE"
      (case_type ++ " for " ++ rake_id ++ ":" ++ wagon_no ++ " by " ++
        reported_by)
      { db with cases := db.cases ++
        [⟨"CASE-" ++ u3.take 8, rake_id, wagon_no, case_type, reported_by,
          t3, details⟩] },
      ?_, rfl⟩⟩
  · simp [Pro.db_insert_assignment, Pro.log_activity, hany1]
  · simp [Pro.db_insert_case, Pro.log_activity, hany2]

theorem C6_witness :
    (Pro.db_insert_rake 0 "R1" "F" "S" "E" "W" "" "lu1" 1
        ⟨[], [], [], []⟩).activity_log =
      ([] : List LogRow) ++
        [⟨"lu1", 1, "INFO", "FOIS_SIM", "Inserted/Updated rake " ++ "R1"⟩] ∧
    (∃ db1, Pro.db_insert_assignment "u2" 2 "R1" ["TRK-101"] "L" "REASON"
        "lu2" 3 ⟨[], [], [], []⟩ = some ("u2", db1) ∧
      db1.activity_log = ([] : List LogRow) ++
        [⟨"lu2", 3, "INFO", "ASSIGN",
          "Assigned " ++ toString (["TRK-101"] : List String).length ++
            " trucks to " ++ "R1"⟩]) ∧
    (∃ db2, Pro.db_insert_case "0123456789" 4 "R1" "W001" "DAMAGE" "rep" "d"
        "lu3" 5 ⟨[], [], [], []⟩ =
        some ("CASE-" ++ "0123456789".take 8, db2) ∧
      db2.activity_log = ([] : List LogRow) ++
        [⟨"lu3", 5, "WARN", "CASE",
          "DAMAGE" ++ " for " ++ "R1" ++ ":" ++ "W001" ++ " by " ++ "rep"⟩]) :=
  C6_mutations_log_one_entry ⟨[], [], [], []⟩ 0 2 4 1 3 5 "u2" "0123456789"
    "lu1" "lu2" "lu3" "R1" "F" "S" "E" "W" "" "L" "REASON" "W001" "DAMAGE"
    "rep" "d" ["TRK-101"] (by simp) (by simp)

end URMS
